import Mathlib

/-!
Shallow embedding of the `knfo` utility (`src/main.rs`): a Windows
known-folders lister.  The program parses its command-line arguments into a
`KNOWN_FOLDER_FLAG` bitmask, initializes COM, enumerates every registered
known folder, resolves each folder's canonical name and (if possible) its
filesystem path, and prints an aligned table sorted by name.

The embedding models:
  * strings as `List Char` (`Str`), compared by Unicode codepoint — this
    coincides with Rust's `String` ordering (byte-wise UTF-8 comparison
    orders exactly like codepoint-wise comparison);
  * the flag table and `read_args_as_kf_flags` directly from the source
    (`KNOWN_FOLDER_FLAG` values are the Windows SDK constants, held as `Nat`
    bitmasks; Rust's full Unicode `to_uppercase` is modelled by ASCII
    uppercasing, on which the two agree for every character of every
    recognized flag name);
  * the COM service (`IKnownFolderManager`, `IKnownFolder`) as an
    environment recording the outcome of each service call, and
    `get_named_paths` as a function of that environment which additionally
    produces a trace of acquire/release events, one per service-allocated
    block, mirroring exactly where the Rust `Drop` impls run;
  * `print_table`, `run` and `main` over those models, with Rust's stable
    `sort_by` modelled by `List.insertionSort` (both are stable sorts by the
    same comparator, hence produce the same list).
-/

namespace Knfo

/-- Rust `String` / `&str`, modelled as its list of Unicode scalar values. -/
abbrev Str := List Char

/-- Rust `enum FlagParseError` (the three argument-parsing failures). -/
inductive FlagParseError where
  | UnrecognizedOption (arg : Str)
  | UnrecognizedFlag (name : Str)
  | BannedFlag (name : Str)
deriving DecidableEq, Repr

/-! Windows SDK `KNOWN_FOLDER_FLAG` constants, as imported by the source. -/

def KF_FLAG_DEFAULT : Nat := 0x00000000
def KF_FLAG_FORCE_APP_DATA_REDIRECTION : Nat := 0x00080000
def KF_FLAG_RETURN_FILTER_REDIRECTION_TARGET : Nat := 0x00040000
def KF_FLAG_FORCE_PACKAGE_REDIRECTION : Nat := 0x00020000
def KF_FLAG_NO_PACKAGE_REDIRECTION : Nat := 0x00010000
def KF_FLAG_FORCE_APPCONTAINER_REDIRECTION : Nat := 0x00020000
def KF_FLAG_CREATE : Nat := 0x00008000
def KF_FLAG_DONT_VERIFY : Nat := 0x00004000
def KF_FLAG_DONT_UNEXPAND : Nat := 0x00002000
def KF_FLAG_NO_ALIAS : Nat := 0x00001000
def KF_FLAG_INIT : Nat := 0x00000800
def KF_FLAG_DEFAULT_PATH : Nat := 0x00000400
def KF_FLAG_NOT_PARENT_RELATIVE : Nat := 0x00000200
def KF_FLAG_SIMPLE_IDLIST : Nat := 0x00000100
def KF_FLAG_ALIAS_ONLY : Nat := 0x80000000

/-- `const NAMED_KF_FLAGS`: pairs of each flag's symbolic name (as produced by
the `named!` macro via `stringify!`) with its value. -/
def NAMED_KF_FLAGS : List (Str × Nat) :=
  [("KF_FLAG_DEFAULT".data, KF_FLAG_DEFAULT),
   ("KF_FLAG_FORCE_APP_DATA_REDIRECTION".data, KF_FLAG_FORCE_APP_DATA_REDIRECTION),
   ("KF_FLAG_RETURN_FILTER_REDIRECTION_TARGET".data, KF_FLAG_RETURN_FILTER_REDIRECTION_TARGET),
   ("KF_FLAG_FORCE_PACKAGE_REDIRECTION".data, KF_FLAG_FORCE_PACKAGE_REDIRECTION),
   ("KF_FLAG_NO_PACKAGE_REDIRECTION".data, KF_FLAG_NO_PACKAGE_REDIRECTION),
   ("KF_FLAG_FORCE_APPCONTAINER_REDIRECTION".data, KF_FLAG_FORCE_APPCONTAINER_REDIRECTION),
   ("KF_FLAG_CREATE".data, KF_FLAG_CREATE),
   ("KF_FLAG_DONT_VERIFY".data, KF_FLAG_DONT_VERIFY),
   ("KF_FLAG_DONT_UNEXPAND".data, KF_FLAG_DONT_UNEXPAND),
   ("KF_FLAG_NO_ALIAS".data, KF_FLAG_NO_ALIAS),
   ("KF_FLAG_INIT".data, KF_FLAG_INIT),
   ("KF_FLAG_DEFAULT_PATH".data, KF_FLAG_DEFAULT_PATH),
   ("KF_FLAG_NOT_PARENT_RELATIVE".data, KF_FLAG_NOT_PARENT_RELATIVE),
   ("KF_FLAG_SIMPLE_IDLIST".data, KF_FLAG_SIMPLE_IDLIST),
   ("KF_FLAG_ALIAS_ONLY".data, KF_FLAG_ALIAS_ONLY)]

/-- `const BANNED_KF_FLAGS`: flags the program refuses to pass. -/
def BANNED_KF_FLAGS : List Nat := [KF_FLAG_CREATE, KF_FLAG_INIT]

/-- `fn normalize_flag_name`: upper-case the token and prepend `KF_FLAG_` when
it is not already present.  Rust's `to_uppercase` agrees with `Char.toUpper`
on the ASCII range, which covers every recognized flag name. -/
def normalize_flag_name (flag_arg : Str) : Str :=
  let upcased := flag_arg.map Char.toUpper
  if "KF_FLAG_".data.isPrefixOf upcased then upcased
  else "KF_FLAG_".data ++ upcased

/-- The per-token loop of `fn read_args_as_kf_flags`, with the accumulated
mask threaded through.  The `HashMap` built from `NAMED_KF_FLAGS` (whose keys
are pairwise distinct) is modelled by association-list lookup. -/
def read_args_go : List Str → Nat → Except FlagParseError Nat
  | [], flags => .ok flags
  | flag_arg :: rest, flags =>
    if flag_arg.head? = some '-' then
      .error (.UnrecognizedOption flag_arg)
    else
      let flag_name := normalize_flag_name flag_arg
      match NAMED_KF_FLAGS.lookup flag_name with
      | none => .error (.UnrecognizedFlag flag_name)
      | some flag =>
        if flag ∈ BANNED_KF_FLAGS then .error (.BannedFlag flag_name)
        else read_args_go rest (flags ||| flag)

/-- `fn read_args_as_kf_flags`, as a function of the argument tokens (Rust
reads them from `std::env::args().skip(1)`).  The defensive trailing
`assert!` that no banned flag survived accumulation is established as a
theorem below rather than re-modelled as a runtime check. -/
def read_args_as_kf_flags (args : List Str) : Except FlagParseError Nat :=
  read_args_go args KF_FLAG_DEFAULT

/-- `windows::core::Error`: the only part the program consumes is its
displayable message (`e.message()`). -/
structure WindowsError where
  message : Str
deriving DecidableEq, Repr

/-- `std::string::FromUtf16Error` (the payload is irrelevant to the program;
only its occurrence and its conversion into `WindowsError` matter). -/
structure FromUtf16Error where
  note : Str
deriving DecidableEq, Repr

/-- The `From<FromUtf16Error> for windows::core::Error` conversion performed
by the `?` operator inside `get_named_paths`. -/
def fromUtf16 (e : FromUtf16Error) : WindowsError :=
  { message := "invalid UTF-16".data ++ e.note }

instance {ε α : Type} [DecidableEq ε] [DecidableEq α] : DecidableEq (Except ε α) := fun x y =>
  match x, y with
  | .ok a, .ok b => decidable_of_iff (a = b) (by simp)
  | .error a, .error b => decidable_of_iff (a = b) (by simp)
  | .ok _, .error _ => isFalse (by simp)
  | .error _, .ok _ => isFalse (by simp)

/-- `struct NamedPath`: a known folder name and either its retrieved path or
the error from getting the path. -/
structure NamedPath where
  name : Str
  try_path : Except WindowsError Str
deriving DecidableEq, Repr

/-! ### The COM service environment

`get_named_paths` talks to the shell's known-folder service through
`IKnownFolderManager` and `IKnownFolder`.  The environment below records, for
one run (with the run's flag mask already fixed), the outcome of every
service call the function can make, in program order.  Service-allocated
blocks are tracked by a trace of acquire/release events so that the resource
discipline of the `Drop` impls can be stated and proved. -/

/-- The three categories of service-allocated memory the program owns:
the GUID array from `GetFolderIds` (freed as one block by
`KnownFolderIds::drop`), the eight string fields of a
`KNOWNFOLDER_DEFINITION` (freed individually by
`KnownFolderDefinition::drop`), and a path string from `GetPath` (freed by
`CoStr::drop`). -/
inductive Cat where
  | ids
  | defField
  | pathStr
deriving DecidableEq, Repr

/-- One acquire (service allocation handed to an owner) or release
(`CoTaskMemFree` run by a `Drop` impl) event; `rid` identifies the block. -/
structure Ev where
  isAcquire : Bool
  cat : Cat
  rid : Nat
deriving DecidableEq, Repr

abbrev Trace := List Ev

/-- Service behaviour for one enumerated folder id: the outcomes of
`GetFolder`, `GetFolderDefinition`, decoding `pszName`, `GetPath` (under the
run's flags), and decoding the returned path string. -/
structure FolderSpec where
  getFolder : Except WindowsError Unit
  getDefinition : Except WindowsError Unit
  nameDecode : Except FromUtf16Error Str
  getPath : Except WindowsError Unit
  pathDecode : Except FromUtf16Error Str
deriving DecidableEq, Repr

/-- Service behaviour for one run: the outcome of `CoCreateInstance` for the
manager and of `GetFolderIds` (on success, the per-id behaviours, in
enumeration order). -/
structure ComEnv where
  coCreate : Except WindowsError Unit
  getFolderIds : Except WindowsError (List FolderSpec)
deriving Repr

/-- Acquisition of the eight string fields written by `GetFolderDefinition`
into a `KNOWNFOLDER_DEFINITION` (`pszName`, `pszDescription`,
`pszRelativePath`, `pszParsingName`, `pszTooltip`, `pszLocalizedName`,
`pszIcon`, `pszSecurity`). -/
def defFieldAcqs (fid : Nat) : Trace :=
  [⟨true, .defField, fid⟩, ⟨true, .defField, fid + 1⟩, ⟨true, .defField, fid + 2⟩,
   ⟨true, .defField, fid + 3⟩, ⟨true, .defField, fid + 4⟩, ⟨true, .defField, fid + 5⟩,
   ⟨true, .defField, fid + 6⟩, ⟨true, .defField, fid + 7⟩]

/-- `KnownFolderDefinition::drop`: one `CoTaskMemFree` per string field, in
the order the `Drop` impl lists them. -/
def defFieldRels (fid : Nat) : Trace :=
  [⟨false, .defField, fid⟩, ⟨false, .defField, fid + 1⟩, ⟨false, .defField, fid + 2⟩,
   ⟨false, .defField, fid + 3⟩, ⟨false, .defField, fid + 4⟩, ⟨false, .defField, fid + 5⟩,
   ⟨false, .defField, fid + 6⟩, ⟨false, .defField, fid + 7⟩]

/-- One iteration of the loop body of `get_named_paths` for one folder id.
Returns the iteration's outcome (fatal error, or the `NamedPath` record),
the next fresh block id, and the trace of acquire/release events in the
order they happen in Rust:

  * `GetFolder` fails: fatal, nothing was acquired;
  * `GetFolderDefinition` fails: fatal, the definition owner was never
    constructed;
  * the definition owner is a temporary of the `let name = ...;` statement,
    so its eight fields are acquired and then released within that statement
    whether `pszName.to_string()` succeeds (binding `name`) or fails
    (propagating the decode error after the drop);
  * `GetPath` fails: non-fatal, recorded as the record's outcome, no path
    block exists;
  * `GetPath` succeeds: the path block is owned by a `CoStr` temporary and
    released at the end of the match arm, whether decoding succeeds (the
    record's path) or fails (fatal, propagated after the drop). -/
def processEntry (fid : Nat) (sp : FolderSpec) :
    Except WindowsError NamedPath × Nat × Trace :=
  match sp.getFolder with
  | .error e => (.error e, fid, [])
  | .ok _ =>
  match sp.getDefinition with
  | .error e => (.error e, fid, [])
  | .ok _ =>
  match sp.nameDecode with
  | .error e => (.error (fromUtf16 e), fid + 8, defFieldAcqs fid ++ defFieldRels fid)
  | .ok name =>
  match sp.getPath with
  | .error e =>
      (.ok { name := name, try_path := .error e }, fid + 8,
       defFieldAcqs fid ++ defFieldRels fid)
  | .ok _ =>
  match sp.pathDecode with
  | .error e =>
      (.error (fromUtf16 e), fid + 9,
       defFieldAcqs fid ++ defFieldRels fid ++
         [⟨true, .pathStr, fid + 8⟩, ⟨false, .pathStr, fid + 8⟩])
  | .ok path =>
      (.ok { name := name, try_path := .ok path }, fid + 9,
       defFieldAcqs fid ++ defFieldRels fid ++
         [⟨true, .pathStr, fid + 8⟩, ⟨false, .pathStr, fid + 8⟩])

/-- The loop of `get_named_paths` over the enumerated folder ids.  A fatal
iteration outcome aborts the loop (the Rust `?`s return out of the `for`);
otherwise the record is pushed and iteration continues. -/
def processEntries (fid : Nat) : List FolderSpec →
    Except WindowsError (List NamedPath) × Nat × Trace
  | [] => (.ok [], fid, [])
  | sp :: rest =>
    match processEntry fid sp with
    | (.error e, fid', tr) => (.error e, fid', tr)
    | (.ok np, fid', tr) =>
      let out := processEntries fid' rest
      (Except.map (fun l => np :: l) out.1, out.2.1, tr ++ out.2.2)

/-- `fn get_named_paths`, over the service environment.  `CoCreateInstance`
failing is fatal before any acquisition; `GetFolderIds` failing is fatal
before the id array exists; on success the GUID array (block id `0`) is
owned by a `KnownFolderIds` temporary that lives for the whole `for` loop
and is dropped on every exit path — after the loop completes or when an
early `?` return propagates out of the loop body. -/
def get_named_paths (env : ComEnv) :
    Except WindowsError (List NamedPath) × Trace :=
  match env.coCreate with
  | .error e => (.error e, [])
  | .ok _ =>
  match env.getFolderIds with
  | .error e => (.error e, [])
  | .ok sps =>
    let out := processEntries 1 sps
    (out.1, ⟨true, .ids, 0⟩ :: (out.2.2 ++ [⟨false, .ids, 0⟩]))

/-- The record `get_named_paths` builds for a folder id whose fatal steps all
succeed. -/
def recordOf (sp : FolderSpec) : NamedPath :=
  { name := match sp.nameDecode with | .ok n => n | .error _ => []
    try_path :=
      match sp.getPath with
      | .error e => .error e
      | .ok _ =>
        match sp.pathDecode with
        | .ok s => .ok s
        | .error e => .error (fromUtf16 e) }

/-- All fatal steps of one iteration succeed: `GetFolder`,
`GetFolderDefinition` and the name decode succeed, and if `GetPath` succeeds
then so does the path decode.  (A `GetPath` failure is non-fatal.) -/
def entrySucceeds (sp : FolderSpec) : Bool :=
  (match sp.getFolder with | .ok _ => true | .error _ => false) &&
  (match sp.getDefinition with | .ok _ => true | .error _ => false) &&
  (match sp.nameDecode with | .ok _ => true | .error _ => false) &&
  (match sp.getPath, sp.pathDecode with
   | .ok _, .error _ => false
   | _, _ => true)

/-- The path column of one row of `print_table`: the resolved path, or the
failure rendered as `format!("[{}]", e.message())`. -/
def pathItem (np : NamedPath) : Str :=
  match np.try_path with
  | .ok path => path
  | .error e => '[' :: (e.message ++ [']'])

/-- Rust `{name:<width$}`: left-align `name`, padding with spaces on the
right up to `width` characters (a name at least `width` long is not cut). -/
def padTo (s : Str) (width : Nat) : Str :=
  s ++ List.replicate (width - s.length) ' '

/-- `name_width_estimate` in `print_table`: the maximum of the names'
codepoint counts (`chars().count()`), `0` for an empty table. -/
def nameWidth (named_paths : List NamedPath) : Nat :=
  (named_paths.map (fun np => np.name.length)).foldr max 0

/-- One `println!` line of `print_table`. -/
def rowOf (width : Nat) (np : NamedPath) : Str :=
  padTo np.name width ++ "  ".data ++ pathItem np

/-- `fn print_table`, as the list of lines it prints to stdout. -/
def print_table (named_paths : List NamedPath) : List Str :=
  named_paths.map (rowOf (nameWidth named_paths))

/-- Codepoint-wise lexicographic order on strings.  Rust's `String::cmp` is
byte-wise on the UTF-8 encoding, which produces exactly this order. -/
def strLe : Str → Str → Bool
  | [], _ => true
  | _ :: _, [] => false
  | a :: s, b :: t =>
    if a.toNat < b.toNat then true
    else if b.toNat < a.toNat then false
    else strLe s t

/-- The comparator of `run`'s `sort_by`: records are compared by their
`name` field only. -/
def npLe (a b : NamedPath) : Prop := strLe a.name b.name = true

instance : DecidableRel npLe := fun a b => by
  unfold npLe; infer_instance

/-- The sort in `run`: Rust's `sort_by` is a stable sort, and
`List.insertionSort` with the same comparator is stable too; a stable sort's
output is uniquely determined by the comparator, so the two agree. -/
def sortNamedPaths (nps : List NamedPath) : List NamedPath :=
  nps.insertionSort npLe

/-- `fn run`: fetch the records, sort them by name, print the table.
Returns `run`'s result together with the lines printed to stdout (none when
`get_named_paths` fails, since printing only happens after the `?`). -/
def run (env : ComEnv) : Except WindowsError Unit × List Str :=
  match get_named_paths env with
  | (.error e, _) => (.error e, [])
  | (.ok nps, _) => (.ok (), print_table (sortNamedPaths nps))

/-- The `Display` rendering of `FlagParseError` given by its `thiserror`
`#[error(...)]` attributes.  (`{0:?}` on a `String` adds quotes; escape
sequences inside the token are irrelevant to every claim and elided.) -/
def flagErrorDisplay : FlagParseError → Str
  | .UnrecognizedOption arg =>
      "No options are recognized (got ".data ++ ('\"' :: (arg ++ ['\"'])) ++ ")".data
  | .UnrecognizedFlag name => "Unrecognized flag name: ".data ++ name
  | .BannedFlag name =>
      "Refusing to attempt to pass ".data ++ name ++
        " for ALL known folders (dangerous)".data

/-- Inputs of one whole process run: the command-line tokens after the
program name, the outcome of `ComInit::new` (`CoInitializeEx`), and the
folder-service behaviour. -/
structure MainEnv where
  args : List Str
  comInit : Except WindowsError Unit
  comEnv : ComEnv

/-- Observable outcome of the process: exit code and the lines written to
stdout and stderr. -/
structure ProcOutcome where
  exitCode : Nat
  stdoutLines : List Str
  stderrLines : List Str
deriving DecidableEq, Repr

/-- The one line Rust's `Termination` impl for `Result` prints on stderr
when `main` returns `Err` (the error's `Debug` rendering, abstracted to the
error's message) before the process exits with `ExitCode::FAILURE`, i.e.
code `1`. -/
def terminationLine (e : WindowsError) : Str :=
  "Error: ".data ++ e.message

/-- `fn main`.  A flag-parse failure prints `Error: {e}` on stderr and calls
`std::process::exit(2)`.  Past that point, `ComInit::new()?` and `run(flags)?`
propagate any `WindowsError` out of `main`, where Rust's `Termination` impl
for `Result` prints one stderr line and exits with `ExitCode::FAILURE` = `1`
(not `2`).  Success exits `0`. -/
def main (env : MainEnv) : ProcOutcome :=
  match read_args_as_kf_flags env.args with
  | .error e =>
      { exitCode := 2, stdoutLines := [],
        stderrLines := ["Error: ".data ++ flagErrorDisplay e] }
  | .ok _ =>
    match env.comInit with
    | .error e =>
        { exitCode := 1, stdoutLines := [], stderrLines := [terminationLine e] }
    | .ok _ =>
      match run env.comEnv with
      | (.error e, out) =>
          { exitCode := 1, stdoutLines := out, stderrLines := [terminationLine e] }
      | (.ok _, out) =>
          { exitCode := 0, stdoutLines := out, stderrLines := [] }

/-! ### Trace projections and helpers used by the theorems -/

/-- Block ids of the acquisitions of one resource category in a trace. -/
def acqRids (cat : Cat) (tr : Trace) : List Nat :=
  (tr.filter fun e => e.isAcquire && e.cat == cat).map Ev.rid

/-- Block ids of the releases (`CoTaskMemFree` calls) of one category. -/
def relRids (cat : Cat) (tr : Trace) : List Nat :=
  (tr.filter fun e => !e.isAcquire && e.cat == cat).map Ev.rid

/-- Block ids of all acquisitions in a trace, over every category. -/
def allAcqRids (tr : Trace) : List Nat :=
  (tr.filter fun e => e.isAcquire).map Ev.rid

/-- The result component of the enumeration loop, separated from the block-id
bookkeeping (the outcome of `processEntries` does not depend on `fid`). -/
def resultsOf : List FolderSpec → Except WindowsError (List NamedPath)
  | [] => .ok []
  | sp :: rest =>
    match (processEntry 0 sp).1 with
    | .error e => .error e
    | .ok np => Except.map (fun l => np :: l) (resultsOf rest)

/-! ### Concrete environments used by witnesses and counterexamples -/

/-- A folder entry all of whose service calls succeed. -/
def okEntry (name path : Str) : FolderSpec :=
  { getFolder := .ok (), getDefinition := .ok (),
    nameDecode := .ok name, getPath := .ok (), pathDecode := .ok path }

/-- An entry whose `pszName` holds ill-formed UTF-16. -/
def badNameEntry : FolderSpec :=
  { getFolder := .ok (), getDefinition := .ok (),
    nameDecode := .error { note := [] }, getPath := .ok (), pathDecode := .ok [] }

/-- An entry for which `GetPath` itself fails. -/
def badPathCallEntry : FolderSpec :=
  { getFolder := .ok (), getDefinition := .ok (),
    nameDecode := .ok "NoPath".data,
    getPath := .error { message := "not redirected".data }, pathDecode := .ok [] }

/-- An entry for which `GetPath` succeeds but the returned string holds
ill-formed UTF-16. -/
def badPathDecodeEntry : FolderSpec :=
  { getFolder := .ok (), getDefinition := .ok (),
    nameDecode := .ok "BadPath".data, getPath := .ok (),
    pathDecode := .error { note := [] } }

/-- Environment whose middle entry has an undecodable name. -/
def c2envFatal : ComEnv :=
  { coCreate := .ok (),
    getFolderIds := .ok
      [okEntry "First".data "C:/first".data, badNameEntry,
       okEntry "Last".data "C:/last".data] }

/-- Environment whose middle entry has a failing `GetPath`. -/
def c2envNonfatal : ComEnv :=
  { coCreate := .ok (),
    getFolderIds := .ok
      [okEntry "First".data "C:/first".data, badPathCallEntry,
       okEntry "Last".data "C:/last".data] }

/-- Environment whose middle entry has an undecodable path string. -/
def c9envFatal : ComEnv :=
  { coCreate := .ok (),
    getFolderIds := .ok
      [okEntry "First".data "C:/first".data, badPathDecodeEntry,
       okEntry "Last".data "C:/last".data] }

/-- Environment whose middle entry has a failing `GetPath` (contrast case of
the fatal path-decode failure). -/
def c9envNonfatal : ComEnv :=
  { coCreate := .ok (),
    getFolderIds := .ok
      [okEntry "First".data "C:/first".data, badPathCallEntry,
       okEntry "Last".data "C:/last".data] }

/-- A process environment whose COM initialization fails. -/
def comFailEnv : MainEnv :=
  { args := [],
    comInit := .error { message := "CoInitializeEx failed".data },
    comEnv := { coCreate := .ok (), getFolderIds := .ok [] } }

/-- Three fully-successful entries whose names have codepoint lengths 5, 12
and 3 (the column-alignment example). -/
def c8env : ComEnv :=
  { coCreate := .ok (),
    getFolderIds := .ok
      [okEntry "abcde".data "C:/a".data,
       okEntry "abcdefghijkl".data "C:/b".data,
       okEntry "xyz".data "C:/c".data] }

/-- The records `get_named_paths` produces under `c8env`. -/
def c8nps : List NamedPath :=
  [{ name := "abcde".data, try_path := .ok "C:/a".data },
   { name := "abcdefghijkl".data, try_path := .ok "C:/b".data },
   { name := "xyz".data, try_path := .ok "C:/c".data }]

/-! ## Theorems

First the flag translator (claims C4–C7), then the enumeration protocol
(C1, C2, C9), the process boundary (C3), and the renderer (C8, C10). -/

theorem read_args_go_append (l1 l2 : List Str) (acc : Nat) :
    read_args_go (l1 ++ l2) acc =
      (read_args_go l1 acc).bind fun m => read_args_go l2 m := by
  induction l1 generalizing acc with
  | nil => simp [read_args_go, Except.bind]
  | cons t rest ih =>
    simp only [List.cons_append, read_args_go]
    by_cases hh : t.head? = some '-'
    · simp [hh, Except.bind]
    · rw [if_neg hh, if_neg hh]
      cases NAMED_KF_FLAGS.lookup (normalize_flag_name t) with
      | none => simp [Except.bind]
      | some v =>
        by_cases hb : v ∈ BANNED_KF_FLAGS
        · simp [hb, Except.bind]
        · simp [hb, ih]

theorem kf_not_prefix_hyphen (xs : Str) :
    ("KF_FLAG_".data.isPrefixOf ('-' :: xs)) = false := rfl

theorem toUpper_hyphen : Char.toUpper '-' = '-' := by decide

theorem normalize_hyphen (t : Str) (h : t.head? = some '-') :
    normalize_flag_name t = "KF_FLAG_".data ++ ('-' :: (t.tail.map Char.toUpper)) := by
  cases t with
  | nil => simp at h
  | cons a t' =>
    have ha : a = '-' := by simpa using h
    subst ha
    unfold normalize_flag_name
    simp only [List.map_cons, toUpper_hyphen]
    rw [if_neg]
    · rfl
    · rw [kf_not_prefix_hyphen]
      simp

theorem normalize_ne_banned_of_hyphen (t : Str) (h : t.head? = some '-') :
    normalize_flag_name t ≠ "KF_FLAG_CREATE".data ∧
    normalize_flag_name t ≠ "KF_FLAG_INIT".data := by
  rw [normalize_hyphen t h]
  constructor
  · intro hc
    rw [(rfl : "KF_FLAG_CREATE".data = "KF_FLAG_".data ++ "CREATE".data)] at hc
    have h2 := List.append_cancel_left hc
    simp at h2
  · intro hc
    rw [(rfl : "KF_FLAG_INIT".data = "KF_FLAG_".data ++ "INIT".data)] at hc
    have h2 := List.append_cancel_left hc
    simp at h2

/-- **C4**: any token whose normalized form (upper-cased, `KF_FLAG_`-prefixed
when absent) names `KF_FLAG_CREATE` or `KF_FLAG_INIT` makes
`read_args_as_kf_flags` return `Err(BannedFlag)` — in any case or prefix
form, and regardless of what follows it — provided the tokens before it
were accepted. -/
theorem c4_banned_token_rejected (pre : List Str) (t : Str) (rest : List Str) (m : Nat)
    (hpre : read_args_go pre KF_FLAG_DEFAULT = .ok m)
    (hban : normalize_flag_name t = "KF_FLAG_CREATE".data ∨
            normalize_flag_name t = "KF_FLAG_INIT".data) :
    read_args_as_kf_flags (pre ++ t :: rest) =
      .error (.BannedFlag (normalize_flag_name t)) := by
  unfold read_args_as_kf_flags
  rw [read_args_go_append, hpre]
  show read_args_go (t :: rest) m = _
  have hh : ¬ t.head? = some '-' := by
    intro h
    rcases normalize_ne_banned_of_hyphen t h with ⟨h1, h2⟩
    rcases hban with hc | hc
    · exact h1 hc
    · exact h2 hc
  rcases hban with hc | hc
  · have hl : NAMED_KF_FLAGS.lookup "KF_FLAG_CREATE".data = some KF_FLAG_CREATE := by decide
    have hm : KF_FLAG_CREATE ∈ BANNED_KF_FLAGS := by decide
    simp only [read_args_go, hc]
    rw [if_neg hh, hl]
    simp [hm]
  · have hl : NAMED_KF_FLAGS.lookup "KF_FLAG_INIT".data = some KF_FLAG_INIT := by decide
    have hm : KF_FLAG_INIT ∈ BANNED_KF_FLAGS := by decide
    simp only [read_args_go, hc]
    rw [if_neg hh, hl]
    simp [hm]

/-- Witness for C4: the bare token `create` is rejected as a banned flag. -/
theorem c4_banned_token_rejected_witness :
    read_args_as_kf_flags ["create".data] = .error (.BannedFlag "KF_FLAG_CREATE".data) := by
  have hn : normalize_flag_name "create".data = "KF_FLAG_CREATE".data := by decide
  have h := c4_banned_token_rejected [] "create".data [] KF_FLAG_DEFAULT rfl (Or.inl hn)
  rw [hn] at h
  simpa using h

/-- **C6**: a token starting with `-` is rejected with `UnrecognizedOption`
(carrying the raw token — no normalization or lookup happens to it),
provided the tokens before it were accepted. -/
theorem c6_hyphen_token_rejected (pre : List Str) (t : Str) (rest : List Str) (m : Nat)
    (hpre : read_args_go pre KF_FLAG_DEFAULT = .ok m)
    (hh : t.head? = some '-') :
    read_args_as_kf_flags (pre ++ t :: rest) = .error (.UnrecognizedOption t) := by
  unfold read_args_as_kf_flags
  rw [read_args_go_append, hpre]
  show read_args_go (t :: rest) m = _
  simp [read_args_go, hh]

/-- Witness for C6: `-create` yields `UnrecognizedOption`, not `BannedFlag`. -/
theorem c6_hyphen_token_rejected_witness :
    read_args_as_kf_flags ["-create".data] = .error (.UnrecognizedOption "-create".data) := by
  have h := c6_hyphen_token_rejected [] "-create".data [] KF_FLAG_DEFAULT rfl (by decide)
  simpa using h

theorem lookup_val_mem {α β : Type} [BEq α] (l : List (α × β)) (a : α) (v : β)
    (h : l.lookup a = some v) : ∃ p ∈ l, p.2 = v := by
  induction l with
  | nil => simp [List.lookup] at h
  | cons p rest ih =>
    obtain ⟨k, b⟩ := p
    rw [List.lookup] at h
    cases hk : a == k with
    | true =>
      rw [hk] at h
      simp only [Option.some.injEq] at h
      exact ⟨(k, b), by simp, h⟩
    | false =>
      rw [hk] at h
      obtain ⟨q, hq, hv⟩ := ih h
      exact ⟨q, List.mem_cons_of_mem _ hq, hv⟩

theorem read_args_go_accepted (l : List Str) (acc m : Nat)
    (h : read_args_go l acc = .ok m) :
    ∀ t ∈ l, ∃ v, NAMED_KF_FLAGS.lookup (normalize_flag_name t) = some v ∧
      v ∉ BANNED_KF_FLAGS := by
  induction l generalizing acc with
  | nil => simp
  | cons t rest ih =>
    by_cases hh : t.head? = some '-'
    · simp [read_args_go, hh] at h
    · simp only [read_args_go] at h
      rw [if_neg hh] at h
      cases hl : NAMED_KF_FLAGS.lookup (normalize_flag_name t) with
      | none => rw [hl] at h; simp at h
      | some v =>
        rw [hl] at h
        by_cases hb : v ∈ BANNED_KF_FLAGS
        · simp [hb] at h
        · simp only [if_neg hb] at h
          intro s hs
          rcases List.mem_cons.mp hs with rfl | hs'
          · exact ⟨v, hl, hb⟩
          · exact ih _ h s hs'

theorem read_args_go_testBit (l : List Str) (acc m : Nat)
    (h : read_args_go l acc = .ok m) (i : Nat) :
    m.testBit i = (acc.testBit i ||
      l.any fun t => ((NAMED_KF_FLAGS.lookup (normalize_flag_name t)).getD 0).testBit i) := by
  induction l generalizing acc with
  | nil =>
    simp only [read_args_go, Except.ok.injEq] at h
    subst h
    simp
  | cons t rest ih =>
    by_cases hh : t.head? = some '-'
    · simp [read_args_go, hh] at h
    · simp only [read_args_go] at h
      rw [if_neg hh] at h
      cases hl : NAMED_KF_FLAGS.lookup (normalize_flag_name t) with
      | none => rw [hl] at h; simp at h
      | some v =>
        rw [hl] at h
        by_cases hb : v ∈ BANNED_KF_FLAGS
        · simp [hb] at h
        · simp only [if_neg hb] at h
          rw [ih _ h]
          simp [List.any_cons, hl, Nat.testBit_lor, Bool.or_assoc]

theorem any_congr_mem {α : Type} (p : α → Bool) (l1 l2 : List α)
    (h : ∀ x, x ∈ l1 ↔ x ∈ l2) : l1.any p = l2.any p := by
  cases hA : l1.any p with
  | true =>
    rw [List.any_eq_true] at hA
    obtain ⟨x, hx, hp⟩ := hA
    exact ((List.any_eq_true).mpr ⟨x, (h x).1 hx, hp⟩).symm
  | false =>
    rw [List.any_eq_false] at hA
    exact ((List.any_eq_false).mpr fun x hx => hA x ((h x).2 hx)).symm

/-- **C5**: an `Ok` mask out of `read_args_as_kf_flags` never contains
`KF_FLAG_CREATE` or `KF_FLAG_INIT` (in the `KNOWN_FOLDER_FLAG::contains`
sense `mask & flag == flag`), not even as the bitwise OR of other accepted
flags — the defensive post-accumulation `assert!` can never fire. -/
theorem c5_mask_never_contains_banned (args : List Str) (mask : Nat)
    (h : read_args_as_kf_flags args = .ok mask) :
    ¬ mask &&& KF_FLAG_CREATE = KF_FLAG_CREATE ∧
    ¬ mask &&& KF_FLAG_INIT = KF_FLAG_INIT := by
  unfold read_args_as_kf_flags at h
  have hval := read_args_go_accepted args KF_FLAG_DEFAULT mask h
  have hno : ∀ i, i = 15 ∨ i = 11 → mask.testBit i = false := by
    intro i hi
    rw [read_args_go_testBit args KF_FLAG_DEFAULT mask h i]
    have hz : (KF_FLAG_DEFAULT).testBit i = false := by simp [KF_FLAG_DEFAULT]
    rw [hz, Bool.false_or, List.any_eq_false]
    intro t ht
    obtain ⟨v, hl, hb⟩ := hval t ht
    obtain ⟨p, hp, hpv⟩ := lookup_val_mem _ _ _ hl
    have hfin : ∀ q ∈ NAMED_KF_FLAGS, q.2 ∉ BANNED_KF_FLAGS →
        (q.2.testBit 15 = false ∧ q.2.testBit 11 = false) := by decide
    have hq := hfin p hp (by rw [hpv]; exact hb)
    rw [hl]
    rcases hi with rfl | rfl
    · simp [hpv ▸ hq.1]
    · simp [hpv ▸ hq.2]
  constructor
  · intro hc
    have hbit : (mask &&& KF_FLAG_CREATE).testBit 15 = (KF_FLAG_CREATE : Nat).testBit 15 := by
      rw [hc]
    rw [Nat.testBit_and, hno 15 (Or.inl rfl)] at hbit
    have ht : (KF_FLAG_CREATE : Nat).testBit 15 = true := by decide
    rw [ht] at hbit
    simp at hbit
  · intro hc
    have hbit : (mask &&& KF_FLAG_INIT).testBit 11 = (KF_FLAG_INIT : Nat).testBit 11 := by
      rw [hc]
    rw [Nat.testBit_and, hno 11 (Or.inr rfl)] at hbit
    have ht : (KF_FLAG_INIT : Nat).testBit 11 = true := by decide
    rw [ht] at hbit
    simp at hbit

/-- Witness for C5: the accepted singleton `dont_verify` yields the
`KF_FLAG_DONT_VERIFY` mask, which contains neither banned flag. -/
theorem c5_mask_never_contains_banned_witness :
    read_args_as_kf_flags ["dont_verify".data] = .ok KF_FLAG_DONT_VERIFY ∧
    (¬ KF_FLAG_DONT_VERIFY &&& KF_FLAG_CREATE = KF_FLAG_CREATE ∧
     ¬ KF_FLAG_DONT_VERIFY &&& KF_FLAG_INIT = KF_FLAG_INIT) := by
  have e : read_args_as_kf_flags ["dont_verify".data] = .ok KF_FLAG_DONT_VERIFY := by decide
  exact ⟨e, c5_mask_never_contains_banned _ _ e⟩

/-- **C7**: flag translation is order-insensitive and idempotent on accepted
inputs — two accepted token sequences whose normalized names form the same
set (any order, any case or prefix form, with or without repetition) yield
equal masks. -/
theorem c7_order_insensitive (l1 l2 : List Str) (m1 m2 : Nat)
    (h1 : read_args_as_kf_flags l1 = .ok m1)
    (h2 : read_args_as_kf_flags l2 = .ok m2)
    (hset : ∀ s : Str, s ∈ l1.map normalize_flag_name ↔ s ∈ l2.map normalize_flag_name) :
    m1 = m2 := by
  unfold read_args_as_kf_flags at h1 h2
  apply Nat.eq_of_testBit_eq
  intro i
  rw [read_args_go_testBit l1 KF_FLAG_DEFAULT m1 h1 i,
      read_args_go_testBit l2 KF_FLAG_DEFAULT m2 h2 i]
  have hz : (KF_FLAG_DEFAULT).testBit i = false := by simp [KF_FLAG_DEFAULT]
  rw [hz, Bool.false_or, Bool.false_or]
  have hmap : ∀ l : List Str,
      (l.any fun t => ((NAMED_KF_FLAGS.lookup (normalize_flag_name t)).getD 0).testBit i)
        = ((l.map normalize_flag_name).any
            fun s => ((NAMED_KF_FLAGS.lookup s).getD 0).testBit i) := by
    intro l
    rw [List.any_map]
    rfl
  rw [hmap, hmap]
  exact any_congr_mem _ _ _ hset

/-- Witness for C7: `["dont_verify", "no_alias"]` and
`["NO_ALIAS", "DONT_VERIFY"]` both translate to the mask `0x5000`. -/
theorem c7_order_insensitive_witness :
    read_args_as_kf_flags ["dont_verify".data, "no_alias".data] = .ok 20480 ∧
    read_args_as_kf_flags ["NO_ALIAS".data, "DONT_VERIFY".data] = .ok 20480 ∧
    (20480 : Nat) = 20480 := by
  have e1 : read_args_as_kf_flags ["dont_verify".data, "no_alias".data] = .ok 20480 := by
    decide
  have e2 : read_args_as_kf_flags ["NO_ALIAS".data, "DONT_VERIFY".data] = .ok 20480 := by
    decide
  have hm1 : ["dont_verify".data, "no_alias".data].map normalize_flag_name
      = ["KF_FLAG_DONT_VERIFY".data, "KF_FLAG_NO_ALIAS".data] := by decide
  have hm2 : ["NO_ALIAS".data, "DONT_VERIFY".data].map normalize_flag_name
      = ["KF_FLAG_NO_ALIAS".data, "KF_FLAG_DONT_VERIFY".data] := by decide
  refine ⟨e1, e2, ?_⟩
  refine c7_order_insensitive _ _ _ _ e1 e2 ?_
  intro s
  rw [hm1, hm2]
  simp only [List.mem_cons, List.not_mem_nil, or_false]
  tauto

/-! ### Resource-trace lemmas (claim C1) -/

theorem relRids_append (cat : Cat) (t1 t2 : Trace) :
    relRids cat (t1 ++ t2) = relRids cat t1 ++ relRids cat t2 := by
  simp [relRids, List.filter_append]

theorem acqRids_append (cat : Cat) (t1 t2 : Trace) :
    acqRids cat (t1 ++ t2) = acqRids cat t1 ++ acqRids cat t2 := by
  simp [acqRids, List.filter_append]

theorem allAcqRids_append (t1 t2 : Trace) :
    allAcqRids (t1 ++ t2) = allAcqRids t1 ++ allAcqRids t2 := by
  simp [allAcqRids, List.filter_append]

theorem relRids_cons_acq (cat c : Cat) (r : Nat) (tr : Trace) :
    relRids cat (⟨true, c, r⟩ :: tr) = relRids cat tr := by
  simp [relRids, List.filter_cons]

theorem relRids_cons_rel_self (cat : Cat) (r : Nat) (tr : Trace) :
    relRids cat (⟨false, cat, r⟩ :: tr) = r :: relRids cat tr := by
  simp [relRids, List.filter_cons]

theorem relRids_cons_rel_other (cat c : Cat) (r : Nat) (tr : Trace) (h : c ≠ cat) :
    relRids cat (⟨false, c, r⟩ :: tr) = relRids cat tr := by
  simp [relRids, List.filter_cons, h]

theorem acqRids_cons_rel (cat c : Cat) (r : Nat) (tr : Trace) :
    acqRids cat (⟨false, c, r⟩ :: tr) = acqRids cat tr := by
  simp [acqRids, List.filter_cons]

theorem acqRids_cons_acq_self (cat : Cat) (r : Nat) (tr : Trace) :
    acqRids cat (⟨true, cat, r⟩ :: tr) = r :: acqRids cat tr := by
  simp [acqRids, List.filter_cons]

theorem acqRids_cons_acq_other (cat c : Cat) (r : Nat) (tr : Trace) (h : c ≠ cat) :
    acqRids cat (⟨true, c, r⟩ :: tr) = acqRids cat tr := by
  simp [acqRids, List.filter_cons, h]

theorem allAcqRids_cons_acq (c : Cat) (r : Nat) (tr : Trace) :
    allAcqRids (⟨true, c, r⟩ :: tr) = r :: allAcqRids tr := by
  simp [allAcqRids, List.filter_cons]

theorem allAcqRids_cons_rel (c : Cat) (r : Nat) (tr : Trace) :
    allAcqRids (⟨false, c, r⟩ :: tr) = allAcqRids tr := by
  simp [allAcqRids, List.filter_cons]

theorem relRids_nil (cat : Cat) : relRids cat [] = [] := rfl

theorem acqRids_nil (cat : Cat) : acqRids cat [] = [] := rfl

theorem allAcqRids_nil : allAcqRids [] = [] := rfl

theorem mem_allAcqRids (tr : Trace) (x : Nat) (h : x ∈ allAcqRids tr) :
    ∃ e ∈ tr, e.rid = x := by
  simp only [allAcqRids, List.mem_map, List.mem_filter] at h
  obtain ⟨e, ⟨he, _⟩, hx⟩ := h
  exact ⟨e, he, hx⟩

theorem relRids_ids_nil (tr : Trace) (h : ∀ e ∈ tr, e.cat ≠ Cat.ids) :
    relRids Cat.ids tr = [] := by
  have hf : (tr.filter fun e => !e.isAcquire && e.cat == Cat.ids) = [] := by
    rw [List.filter_eq_nil_iff]
    intro e he
    have hne := h e he
    simp [hne]
  unfold relRids
  rw [hf, List.map_nil]

theorem acqRids_ids_nil (tr : Trace) (h : ∀ e ∈ tr, e.cat ≠ Cat.ids) :
    acqRids Cat.ids tr = [] := by
  have hf : (tr.filter fun e => e.isAcquire && e.cat == Cat.ids) = [] := by
    rw [List.filter_eq_nil_iff]
    intro e he
    have hne := h e he
    simp [hne]
  unfold acqRids
  rw [hf, List.map_nil]

theorem processEntry_balance (fid : Nat) (sp : FolderSpec) (cat : Cat) :
    relRids cat (processEntry fid sp).2.2 = acqRids cat (processEntry fid sp).2.2 := by
  obtain ⟨gf, gd, nd, gp, pd⟩ := sp
  cases gf <;> cases gd <;> cases nd <;> cases gp <;> cases pd <;> cases cat <;> rfl

theorem processEntry_bounds (fid : Nat) (sp : FolderSpec) :
    fid ≤ (processEntry fid sp).2.1 ∧
    ∀ e ∈ (processEntry fid sp).2.2,
      (fid ≤ e.rid ∧ e.rid < (processEntry fid sp).2.1) ∧ e.cat ≠ Cat.ids := by
  obtain ⟨gf, gd, nd, gp, pd⟩ := sp
  cases gf <;> cases gd <;> cases nd <;> cases gp <;> cases pd <;>
    simp [processEntry, defFieldAcqs, defFieldRels, List.forall_mem_cons]

theorem processEntry_acq_nodup (fid : Nat) (sp : FolderSpec) :
    (allAcqRids (processEntry fid sp).2.2).Nodup := by
  obtain ⟨gf, gd, nd, gp, pd⟩ := sp
  cases gf <;> cases gd <;> cases nd <;> cases gp <;> cases pd <;>
    simp [processEntry, allAcqRids, defFieldAcqs, defFieldRels, List.filter_cons,
      List.nodup_cons, List.mem_cons]

theorem processEntries_balance (sps : List FolderSpec) (fid : Nat) (cat : Cat) :
    relRids cat (processEntries fid sps).2.2 = acqRids cat (processEntries fid sps).2.2 := by
  induction sps generalizing fid with
  | nil => rfl
  | cons sp rest ih =>
    have hE := processEntry_balance fid sp cat
    rcases hP : processEntry fid sp with ⟨res, fid', tr⟩
    rw [hP] at hE
    cases res with
    | error e =>
      simp only [processEntries, hP]
      exact hE
    | ok np =>
      simp only [processEntries, hP]
      rw [relRids_append, acqRids_append, hE, ih fid']

theorem processEntries_bounds (sps : List FolderSpec) (fid : Nat) :
    fid ≤ (processEntries fid sps).2.1 ∧
    ∀ e ∈ (processEntries fid sps).2.2,
      (fid ≤ e.rid ∧ e.rid < (processEntries fid sps).2.1) ∧ e.cat ≠ Cat.ids := by
  induction sps generalizing fid with
  | nil => simp [processEntries]
  | cons sp rest ih =>
    obtain ⟨hfe, he⟩ := processEntry_bounds fid sp
    rcases hP : processEntry fid sp with ⟨res, fid', tr⟩
    rw [hP] at hfe he
    cases res with
    | error e =>
      simp only [processEntries, hP]
      exact ⟨hfe, he⟩
    | ok np =>
      obtain ⟨hfr, hr⟩ := ih fid'
      simp only [processEntries, hP]
      constructor
      · exact le_trans hfe hfr
      · intro ev hev
        rcases List.mem_append.mp hev with h1 | h2
        · obtain ⟨⟨a, b⟩, c⟩ := he ev h1
          exact ⟨⟨a, lt_of_lt_of_le b hfr⟩, c⟩
        · obtain ⟨⟨a, b⟩, c⟩ := hr ev h2
          exact ⟨⟨le_trans hfe a, b⟩, c⟩

theorem processEntries_acq_nodup (sps : List FolderSpec) (fid : Nat) :
    (allAcqRids (processEntries fid sps).2.2).Nodup := by
  induction sps generalizing fid with
  | nil => simp [processEntries, allAcqRids]
  | cons sp rest ih =>
    obtain ⟨hfe, he⟩ := processEntry_bounds fid sp
    have hn := processEntry_acq_nodup fid sp
    rcases hP : processEntry fid sp with ⟨res, fid', tr⟩
    rw [hP] at hfe he hn
    dsimp only at hfe he hn
    cases res with
    | error e =>
      simp only [processEntries, hP]
      exact hn
    | ok np =>
      obtain ⟨hfr, hr⟩ := processEntries_bounds rest fid'
      simp only [processEntries, hP]
      rw [allAcqRids_append]
      refine List.Nodup.append hn (ih fid') ?_
      intro x hx1 hx2
      obtain ⟨e1, he1, hr1⟩ := mem_allAcqRids tr x hx1
      obtain ⟨e2, he2, hr2⟩ := mem_allAcqRids _ x hx2
      obtain ⟨⟨_, hlt⟩, _⟩ := he e1 he1
      obtain ⟨⟨hge, _⟩, _⟩ := hr e2 he2
      omega

/-- **C1**: in every execution of `get_named_paths` — including executions
that return early with an error — the releases of each resource category
(`CoTaskMemFree` calls made by the owners' `Drop` impls) hit exactly the
blocks acquired for that category, one release per successful acquisition:
equal counts, no double free, no leak on any exit path.  (Acquired block ids
are pairwise distinct, and the released-id list equals the acquired-id
list.) -/
theorem c1_release_balance (env : ComEnv) (cat : Cat) :
    relRids cat (get_named_paths env).2 = acqRids cat (get_named_paths env).2 ∧
    (allAcqRids (get_named_paths env).2).Nodup := by
  unfold get_named_paths
  cases hc : env.coCreate with
  | error e => simp [relRids, acqRids, allAcqRids]
  | ok u =>
    cases hi : env.getFolderIds with
    | error e => simp [relRids, acqRids, allAcqRids]
    | ok sps =>
      obtain ⟨hfb, hb⟩ := processEntries_bounds sps 1
      have hbal := processEntries_balance sps 1 cat
      have hnd := processEntries_acq_nodup sps 1
      have hcat : ∀ e ∈ (processEntries 1 sps).2.2, e.cat ≠ Cat.ids :=
        fun e he => (hb e he).2
      simp only []
      constructor
      · cases cat with
        | ids =>
          rw [relRids_cons_acq, relRids_append,
            relRids_ids_nil _ hcat, relRids_cons_rel_self,
            acqRids_cons_acq_self, acqRids_append,
            acqRids_ids_nil _ hcat, acqRids_cons_rel]
          rfl
        | defField =>
          rw [relRids_cons_acq, relRids_append,
            relRids_cons_rel_other _ _ _ _ (by simp),
            acqRids_cons_acq_other _ _ _ _ (by simp), acqRids_append,
            acqRids_cons_rel]
          simp [hbal, relRids_nil, acqRids_nil]
        | pathStr =>
          rw [relRids_cons_acq, relRids_append,
            relRids_cons_rel_other _ _ _ _ (by simp),
            acqRids_cons_acq_other _ _ _ _ (by simp), acqRids_append,
            acqRids_cons_rel]
          simp [hbal, relRids_nil, acqRids_nil]
      · rw [allAcqRids_cons_acq, allAcqRids_append, allAcqRids_cons_rel]
        have h0 : 0 ∉ allAcqRids (processEntries 1 sps).2.2 := by
          intro hx
          obtain ⟨e, he, hr⟩ := mem_allAcqRids _ 0 hx
          obtain ⟨⟨hge, _⟩, _⟩ := hb e he
          omega
        simp [List.nodup_cons, h0, hnd, allAcqRids_nil]

/-! ### Result lemmas for the enumeration loop (claims C2 and C9) -/

theorem processEntry_fst_fid (fid : Nat) (sp : FolderSpec) :
    (processEntry fid sp).1 = (processEntry 0 sp).1 := by
  obtain ⟨gf, gd, nd, gp, pd⟩ := sp
  cases gf <;> cases gd <;> cases nd <;> cases gp <;> cases pd <;> rfl

theorem processEntries_fst (sps : List FolderSpec) (fid : Nat) :
    (processEntries fid sps).1 = resultsOf sps := by
  induction sps generalizing fid with
  | nil => rfl
  | cons sp rest ih =>
    have h0 := processEntry_fst_fid fid sp
    rcases hP : processEntry fid sp with ⟨res, fid', tr⟩
    rw [hP] at h0
    dsimp only at h0
    cases res with
    | error e =>
      simp only [processEntries, hP, resultsOf, ← h0]
    | ok np =>
      simp only [processEntries, hP, resultsOf, ← h0]
      simp [ih fid']

theorem processEntry_ok_of_succeeds (sp : FolderSpec) (h : entrySucceeds sp = true) :
    (processEntry 0 sp).1 = .ok (recordOf sp) := by
  obtain ⟨gf, gd, nd, gp, pd⟩ := sp
  cases gf <;> cases gd <;> cases nd <;> cases gp <;> cases pd <;>
    (try simp [entrySucceeds] at h) <;> rfl

theorem resultsOf_all_ok (sps : List FolderSpec)
    (h : ∀ sp ∈ sps, entrySucceeds sp = true) :
    resultsOf sps = .ok (sps.map recordOf) := by
  induction sps with
  | nil => rfl
  | cons sp rest ih =>
    have h1 := processEntry_ok_of_succeeds sp (h sp (by simp))
    simp only [resultsOf, h1, List.map_cons]
    rw [ih (fun x hx => h x (List.mem_cons_of_mem _ hx))]
    rfl

theorem resultsOf_append (pre l : List FolderSpec)
    (h : ∀ sp ∈ pre, entrySucceeds sp = true) :
    resultsOf (pre ++ l) = (resultsOf l).map (fun r => pre.map recordOf ++ r) := by
  induction pre with
  | nil =>
    simp only [List.nil_append, List.map_nil]
    cases resultsOf l <;> simp [Except.map]
  | cons sp rest ih =>
    have h1 := processEntry_ok_of_succeeds sp (h sp (by simp))
    simp only [List.cons_append, resultsOf, h1, List.map_cons, List.append_eq]
    rw [ih (fun x hx => h x (List.mem_cons_of_mem _ hx))]
    cases resultsOf l <;> simp [Except.map]

theorem processEntry_fatal_name (sp : FolderSpec) (u : FromUtf16Error)
    (hgf : sp.getFolder = .ok ()) (hgd : sp.getDefinition = .ok ())
    (hnd : sp.nameDecode = .error u) :
    (processEntry 0 sp).1 = .error (fromUtf16 u) := by
  obtain ⟨gf, gd, nd, gp, pd⟩ := sp
  cases gf <;> cases gd <;> cases nd <;> simp_all [processEntry]

theorem processEntry_nonfatal_path (sp : FolderSpec) (name : Str) (e : WindowsError)
    (hgf : sp.getFolder = .ok ()) (hgd : sp.getDefinition = .ok ())
    (hnd : sp.nameDecode = .ok name) (hgp : sp.getPath = .error e) :
    (processEntry 0 sp).1 = .ok { name := name, try_path := .error e } := by
  obtain ⟨gf, gd, nd, gp, pd⟩ := sp
  cases gf <;> cases gd <;> cases nd <;> cases gp <;> simp_all [processEntry]

theorem processEntry_fatal_pathDecode (sp : FolderSpec) (name : Str) (u : FromUtf16Error)
    (hgf : sp.getFolder = .ok ()) (hgd : sp.getDefinition = .ok ())
    (hnd : sp.nameDecode = .ok name) (hgp : sp.getPath = .ok ())
    (hpd : sp.pathDecode = .error u) :
    (processEntry 0 sp).1 = .error (fromUtf16 u) := by
  obtain ⟨gf, gd, nd, gp, pd⟩ := sp
  cases gf <;> cases gd <;> cases nd <;> cases gp <;> cases pd <;> simp_all [processEntry]

theorem get_named_paths_fst (env : ComEnv) (sps : List FolderSpec)
    (hco : env.coCreate = .ok ()) (hids : env.getFolderIds = .ok sps) :
    (get_named_paths env).1 = resultsOf sps := by
  unfold get_named_paths
  rw [hco, hids]
  dsimp only
  exact processEntries_fst sps 1

theorem run_lines_of_error (env : ComEnv) (e : WindowsError)
    (h : (get_named_paths env).1 = .error e) : (run env).2 = [] := by
  unfold run
  rcases hG : get_named_paths env with ⟨res, tr⟩
  rw [hG] at h
  dsimp only at h
  rw [h]

/-- **C2**: in `get_named_paths`, a failure to decode one entry's display
name is fatal — the function returns the error and `run` prints no table
line at all — whereas a `GetPath` failure on one entry is non-fatal: it is
captured as that record's outcome and every other entry is still
enumerated. -/
theorem c2_fatal_vs_nonfatal (env1 env2 : ComEnv)
    (pre1 rest1 pre2 rest2 : List FolderSpec) (bad1 bad2 : FolderSpec)
    (u : FromUtf16Error) (e : WindowsError) (name : Str)
    (hco1 : env1.coCreate = .ok ())
    (hids1 : env1.getFolderIds = .ok (pre1 ++ bad1 :: rest1))
    (hpre1 : ∀ sp ∈ pre1, entrySucceeds sp = true)
    (hgf1 : bad1.getFolder = .ok ()) (hgd1 : bad1.getDefinition = .ok ())
    (hnd1 : bad1.nameDecode = .error u)
    (hco2 : env2.coCreate = .ok ())
    (hids2 : env2.getFolderIds = .ok (pre2 ++ bad2 :: rest2))
    (hpre2 : ∀ sp ∈ pre2, entrySucceeds sp = true)
    (hrest2 : ∀ sp ∈ rest2, entrySucceeds sp = true)
    (hgf2 : bad2.getFolder = .ok ()) (hgd2 : bad2.getDefinition = .ok ())
    (hnd2 : bad2.nameDecode = .ok name) (hgp2 : bad2.getPath = .error e) :
    ((get_named_paths env1).1 = .error (fromUtf16 u) ∧ (run env1).2 = []) ∧
    (get_named_paths env2).1 =
      .ok (pre2.map recordOf ++
        { name := name, try_path := .error e } :: rest2.map recordOf) := by
  have hioc1 := get_named_paths_fst env1 _ hco1 hids1
  have hres1 : resultsOf (pre1 ++ bad1 :: rest1) = .error (fromUtf16 u) := by
    rw [resultsOf_append _ _ hpre1]
    have hb : resultsOf (bad1 :: rest1) = .error (fromUtf16 u) := by
      simp only [resultsOf, processEntry_fatal_name bad1 u hgf1 hgd1 hnd1]
    rw [hb]
    rfl
  refine ⟨⟨?_, ?_⟩, ?_⟩
  · rw [hioc1, hres1]
  · exact run_lines_of_error env1 _ (by rw [hioc1, hres1])
  · have hioc2 := get_named_paths_fst env2 _ hco2 hids2
    rw [hioc2, resultsOf_append _ _ hpre2]
    have hbad := processEntry_nonfatal_path bad2 name e hgf2 hgd2 hnd2 hgp2
    simp only [resultsOf, hbad, resultsOf_all_ok rest2 hrest2]
    rfl

/-- Witness for C2: under `c2envFatal` (middle entry's name undecodable) the
whole run aborts with no output, while under `c2envNonfatal` (middle entry's
`GetPath` fails) all three records are produced, the middle one carrying the
error. -/
theorem c2_fatal_vs_nonfatal_witness :
    ((get_named_paths c2envFatal).1 = .error (fromUtf16 { note := [] }) ∧
     (run c2envFatal).2 = []) ∧
    (get_named_paths c2envNonfatal).1 =
      .ok ([okEntry "First".data "C:/first".data].map recordOf ++
        { name := "NoPath".data,
          try_path := .error { message := "not redirected".data } } ::
          [okEntry "Last".data "C:/last".data].map recordOf) :=
  c2_fatal_vs_nonfatal c2envFatal c2envNonfatal
    [okEntry "First".data "C:/first".data] [okEntry "Last".data "C:/last".data]
    [okEntry "First".data "C:/first".data] [okEntry "Last".data "C:/last".data]
    badNameEntry badPathCallEntry { note := [] }
    { message := "not redirected".data } "NoPath".data
    rfl rfl (by decide) rfl rfl rfl
    rfl rfl (by decide) (by decide) rfl rfl rfl rfl

/-- **C9**: if `GetPath` succeeds for an entry but decoding the returned
path string fails, `get_named_paths` propagates the decode error as fatal —
no record for that entry or any later one, no table printed — in contrast
to a `GetPath` failure on the same entry shape, which is recorded
non-fatally and leaves the rest of the enumeration intact. -/
theorem c9_path_decode_fatal (env1 env2 : ComEnv)
    (pre1 rest1 pre2 rest2 : List FolderSpec) (bad1 bad2 : FolderSpec)
    (u : FromUtf16Error) (e : WindowsError) (name1 name2 : Str)
    (hco1 : env1.coCreate = .ok ())
    (hids1 : env1.getFolderIds = .ok (pre1 ++ bad1 :: rest1))
    (hpre1 : ∀ sp ∈ pre1, entrySucceeds sp = true)
    (hgf1 : bad1.getFolder = .ok ()) (hgd1 : bad1.getDefinition = .ok ())
    (hnd1 : bad1.nameDecode = .ok name1) (hgp1 : bad1.getPath = .ok ())
    (hpd1 : bad1.pathDecode = .error u)
    (hco2 : env2.coCreate = .ok ())
    (hids2 : env2.getFolderIds = .ok (pre2 ++ bad2 :: rest2))
    (hpre2 : ∀ sp ∈ pre2, entrySucceeds sp = true)
    (hrest2 : ∀ sp ∈ rest2, entrySucceeds sp = true)
    (hgf2 : bad2.getFolder = .ok ()) (hgd2 : bad2.getDefinition = .ok ())
    (hnd2 : bad2.nameDecode = .ok name2) (hgp2 : bad2.getPath = .error e) :
    ((get_named_paths env1).1 = .error (fromUtf16 u) ∧ (run env1).2 = []) ∧
    (get_named_paths env2).1 =
      .ok (pre2.map recordOf ++
        { name := name2, try_path := .error e } :: rest2.map recordOf) := by
  have hioc1 := get_named_paths_fst env1 _ hco1 hids1
  have hres1 : resultsOf (pre1 ++ bad1 :: rest1) = .error (fromUtf16 u) := by
    rw [resultsOf_append _ _ hpre1]
    have hb : resultsOf (bad1 :: rest1) = .error (fromUtf16 u) := by
      simp only [resultsOf,
        processEntry_fatal_pathDecode bad1 name1 u hgf1 hgd1 hnd1 hgp1 hpd1]
    rw [hb]
    rfl
  refine ⟨⟨?_, ?_⟩, ?_⟩
  · rw [hioc1, hres1]
  · exact run_lines_of_error env1 _ (by rw [hioc1, hres1])
  · have hioc2 := get_named_paths_fst env2 _ hco2 hids2
    rw [hioc2, resultsOf_append _ _ hpre2]
    have hbad := processEntry_nonfatal_path bad2 name2 e hgf2 hgd2 hnd2 hgp2
    simp only [resultsOf, hbad, resultsOf_all_ok rest2 hrest2]
    rfl

/-- Witness for C9: under `c9envFatal` (middle entry's path string
undecodable) the whole run aborts with no output, while under
`c9envNonfatal` (same position, `GetPath` fails instead) all three records
survive. -/
theorem c9_path_decode_fatal_witness :
    ((get_named_paths c9envFatal).1 = .error (fromUtf16 { note := [] }) ∧
     (run c9envFatal).2 = []) ∧
    (get_named_paths c9envNonfatal).1 =
      .ok ([okEntry "First".data "C:/first".data].map recordOf ++
        { name := "NoPath".data,
          try_path := .error { message := "not redirected".data } } ::
          [okEntry "Last".data "C:/last".data].map recordOf) :=
  c9_path_decode_fatal c9envFatal c9envNonfatal
    [okEntry "First".data "C:/first".data] [okEntry "Last".data "C:/last".data]
    [okEntry "First".data "C:/first".data] [okEntry "Last".data "C:/last".data]
    badPathDecodeEntry badPathCallEntry { note := [] }
    { message := "not redirected".data } "BadPath".data "NoPath".data
    rfl rfl (by decide) rfl rfl rfl rfl rfl
    rfl rfl (by decide) (by decide) rfl rfl rfl rfl

/-! ### Process boundary (claim C3) -/

/-- Counterexample to C3 as stated: when COM initialization fails, the
process exits with code `1` — Rust's `ExitCode::FAILURE`, produced by
returning the error out of `main` — not with code `2`, which is reserved
for argument-parsing failures. -/
theorem c3_counterexample :
    (main comFailEnv).exitCode = 1 ∧ ¬ (main comFailEnv).exitCode = 2 ∧
    (main comFailEnv).stdoutLines = [] ∧
    (main comFailEnv).stderrLines.length = 1 := by decide

/-- **C3 (amended)**: if establishing the COM session fails (with argument
parsing having succeeded), the process exits with code `1` (the generic
failure code from `main` returning `Err`), prints zero lines of table
output, and emits exactly one line on the error stream. -/
theorem c3_com_failure_exit (env : MainEnv) (flags : Nat) (e : WindowsError)
    (hargs : read_args_as_kf_flags env.args = .ok flags)
    (hcom : env.comInit = .error e) :
    (main env).exitCode = 1 ∧ (main env).stdoutLines = [] ∧
    (main env).stderrLines = [terminationLine e] := by
  unfold main
  rw [hargs, hcom]
  exact ⟨rfl, rfl, rfl⟩

/-- Witness for the amended C3, at the concrete failing environment. -/
theorem c3_com_failure_exit_witness :
    (main comFailEnv).exitCode = 1 ∧ (main comFailEnv).stdoutLines = [] ∧
    (main comFailEnv).stderrLines =
      [terminationLine { message := "CoInitializeEx failed".data }] :=
  c3_com_failure_exit comFailEnv KF_FLAG_DEFAULT
    { message := "CoInitializeEx failed".data } rfl rfl

/-! ### Ordering on strings and the sort of `run` (claims C8 and C10) -/

theorem strLe_refl (s : Str) : strLe s s = true := by
  induction s with
  | nil => rfl
  | cons a t ih => simp [strLe, ih]

theorem strLe_cons_iff (x y : Char) (s t : Str) :
    strLe (x :: s) (y :: t) = true ↔
      (x.toNat < y.toNat ∨ (x.toNat = y.toNat ∧ strLe s t = true)) := by
  simp only [strLe]
  by_cases h1 : x.toNat < y.toNat
  · simp [h1]
  · by_cases h2 : y.toNat < x.toNat
    · rw [if_neg h1, if_pos h2]
      constructor
      · intro hh
        simp at hh
      · rintro (hlt | ⟨heq, _⟩) <;> omega
    · have heq : x.toNat = y.toNat := by omega
      simp [h1, h2, heq]

theorem strLe_trans (a b c : Str) (h1 : strLe a b = true) (h2 : strLe b c = true) :
    strLe a c = true := by
  induction a generalizing b c with
  | nil => rfl
  | cons x s ih =>
    cases b with
    | nil => simp [strLe] at h1
    | cons y t =>
      cases c with
      | nil => simp [strLe] at h2
      | cons z u =>
        rw [strLe_cons_iff] at h1 h2 ⊢
        rcases h1 with hlt1 | ⟨heq1, hs1⟩
        · rcases h2 with hlt2 | ⟨heq2, hs2⟩
          · left; omega
          · left; omega
        · rcases h2 with hlt2 | ⟨heq2, hs2⟩
          · left; omega
          · right; exact ⟨by omega, ih t u hs1 hs2⟩

theorem strLe_total (a b : Str) : strLe a b = true ∨ strLe b a = true := by
  induction a generalizing b with
  | nil => left; rfl
  | cons x s ih =>
    cases b with
    | nil => right; rfl
    | cons y t =>
      rw [strLe_cons_iff, strLe_cons_iff]
      rcases Nat.lt_trichotomy x.toNat y.toNat with h | h | h
      · left; left; exact h
      · rcases ih t with hh | hh
        · left; right; exact ⟨h, hh⟩
        · right; right; exact ⟨h.symm, hh⟩
      · right; left; exact h

instance : IsTotal NamedPath npLe :=
  ⟨fun a b => strLe_total a.name b.name⟩

instance : IsTrans NamedPath npLe :=
  ⟨fun a b c => strLe_trans a.name b.name c.name⟩

theorem pairwise_of_mem_rel {α : Type} (r : α → α → Prop) (l : List α)
    (h : ∀ a ∈ l, ∀ b ∈ l, r a b) : l.Pairwise r := by
  induction l with
  | nil => exact List.Pairwise.nil
  | cons a t ih =>
    constructor
    · intro b hb
      exact h a (by simp) b (by simp [hb])
    · exact ih fun x hx y hy => h x (by simp [hx]) y (by simp [hy])

/-- **C10**: the sort in `run` is stable and compares only the `name` field:
it permutes the enumerated records (so every record's path outcome is
untouched), and for every name the subsequence of records carrying that
name is exactly the enumeration-order subsequence. -/
theorem c10_sort_stable (nps : List NamedPath) :
    (sortNamedPaths nps).Perm nps ∧
    ∀ n : Str, (sortNamedPaths nps).filter (fun np => np.name == n)
      = nps.filter (fun np => np.name == n) := by
  constructor
  · exact List.perm_insertionSort npLe nps
  · intro n
    have hpw : (nps.filter (fun np => np.name == n)).Pairwise npLe := by
      apply pairwise_of_mem_rel
      intro a ha b hb
      have ha' : a.name = n := by simpa using (List.mem_filter.mp ha).2
      have hb' : b.name = n := by simpa using (List.mem_filter.mp hb).2
      unfold npLe
      rw [ha', hb']
      exact strLe_refl n
    have hsub : (nps.filter (fun np => np.name == n)).Sublist (sortNamedPaths nps) := by
      unfold sortNamedPaths
      exact List.sublist_insertionSort hpw (List.filter_sublist nps)
    have hself : (nps.filter (fun np => np.name == n)).filter (fun np => np.name == n)
        = nps.filter (fun np => np.name == n) := by
      apply List.filter_eq_self.mpr
      intro a ha
      exact (List.mem_filter.mp ha).2
    have h2 : (nps.filter (fun np => np.name == n)).Sublist
        ((sortNamedPaths nps).filter (fun np => np.name == n)) := by
      have hh := hsub.filter (fun np => np.name == n)
      rwa [hself] at hh
    have hlen : ((sortNamedPaths nps).filter (fun np => np.name == n)).length
        = (nps.filter (fun np => np.name == n)).length :=
      ((List.perm_insertionSort npLe nps).filter _).length_eq
    exact (h2.eq_of_length hlen.symm).symm

theorem nameWidth_perm (l1 l2 : List NamedPath) (h : l1.Perm l2) :
    nameWidth l1 = nameWidth l2 := by
  unfold nameWidth
  haveI : LeftCommutative (max : Nat → Nat → Nat) := max_left_commutative
  exact (h.map _).foldr_eq 0

theorem name_le_nameWidth (nps : List NamedPath) (np : NamedPath) (h : np ∈ nps) :
    np.name.length ≤ nameWidth nps := by
  unfold nameWidth
  induction nps with
  | nil => cases h
  | cons a t ih =>
    rcases List.mem_cons.mp h with rfl | h'
    · simp only [List.map_cons, List.foldr_cons]
      exact le_max_left _ _
    · simp only [List.map_cons, List.foldr_cons]
      exact le_trans (ih h') (le_max_right _ _)

theorem padTo_length (s : Str) (w : Nat) (h : s.length ≤ w) :
    (padTo s w).length = w := by
  simp [padTo]
  omega

theorem rowOf_take_drop (w : Nat) (np : NamedPath) (h : np.name.length ≤ w) :
    (rowOf w np).take (w + 2) = padTo np.name w ++ "  ".data ∧
    (rowOf w np).drop (w + 2) = pathItem np := by
  have hsep : ("  ".data : Str).length = 2 := rfl
  have hl : (padTo np.name w ++ "  ".data).length = w + 2 := by
    rw [List.length_append, padTo_length _ _ h, hsep]
  unfold rowOf
  exact ⟨List.take_left' hl, List.drop_left' hl⟩

/-- **C8**: for a non-empty record list, `run` prints one row per record,
sorted ascending by name under the total codepoint order `strLe`; every
row's path-or-message segment begins at the character column equal to the
maximum name length (in codepoints) plus 2, the prefix before it being the
name left-padded to that maximum; and a failure outcome is rendered as the
message in square brackets. -/
theorem c8_sorted_aligned (env : ComEnv) (nps : List NamedPath)
    (hok : (get_named_paths env).1 = .ok nps) (_hne : nps ≠ []) :
    (run env).2 = (sortNamedPaths nps).map (rowOf (nameWidth nps)) ∧
    ((sortNamedPaths nps).map NamedPath.name).Pairwise
      (fun a b => strLe a b = true) ∧
    ∀ np ∈ sortNamedPaths nps,
      (rowOf (nameWidth nps) np).take (nameWidth nps + 2) =
        padTo np.name (nameWidth nps) ++ "  ".data ∧
      (rowOf (nameWidth nps) np).drop (nameWidth nps + 2) = pathItem np ∧
      ∀ e : WindowsError, np.try_path = .error e →
        pathItem np = '[' :: (e.message ++ [']']) := by
  have hperm : (sortNamedPaths nps).Perm nps := List.perm_insertionSort npLe nps
  refine ⟨?_, ?_, ?_⟩
  · rcases hG : get_named_paths env with ⟨res, tr⟩
    rw [hG] at hok
    dsimp only at hok
    subst hok
    unfold run
    rw [hG]
    dsimp only
    unfold print_table
    rw [nameWidth_perm _ _ hperm]
  · have hs : List.Sorted npLe (sortNamedPaths nps) := by
      unfold sortNamedPaths
      exact List.sorted_insertionSort npLe nps
    exact List.Pairwise.map NamedPath.name (fun a b hab => hab) hs
  · intro np hnp
    have hmem : np ∈ nps := hperm.mem_iff.mp hnp
    obtain ⟨h1, h2⟩ := rowOf_take_drop (nameWidth nps) np (name_le_nameWidth nps np hmem)
    refine ⟨h1, h2, ?_⟩
    intro e he
    unfold pathItem
    rw [he]

/-- Witness for C8, at the three-entry environment whose names have
codepoint lengths 5, 12 and 3: the path segment of every row begins at
column `12 + 2`. -/
theorem c8_sorted_aligned_witness :
    (run c8env).2 = (sortNamedPaths c8nps).map (rowOf (nameWidth c8nps)) ∧
    nameWidth c8nps = 12 :=
  ⟨(c8_sorted_aligned c8env c8nps (by decide) (by decide)).1, by decide⟩

end Knfo
